import Mathlib

/-!
Verification of the EZInput mouse input subsystem (`src/mouse.rs`).

The mouse module's own code (`MouseMarker`, its four methods, and
`mouse_input_system`) is embedded directly from the source.  The generic
`InputView` store (`descriptor_or_insert`, `set_axis_value`,
`set_key_receiver_state`, `last_input_source`) lives outside the provided
sources, so those operations are modelled from the specification's
description of their contracts.  Scalar axis values (`f32` in the source)
are modelled as rationals; timestamps (`Instant`) as natural numbers.
-/

namespace EZInput

/-- All types of axis that can be moved in a mouse (`MouseAxisType`). -/
inductive MouseAxisType
  | X
  | Y
  | Wheel
deriving DecidableEq, Repr

/-- Physical mouse buttons (bevy's `MouseButton`). -/
inductive MouseButton
  | Left
  | Right
  | Middle
  | Other (id : Nat)
deriving DecidableEq, Repr

/-- Modelled from the spec: the tag recording which device class most
recently wrote into a view (`InputSource`); the mouse module only ever
writes `Mouse`. -/
inductive InputSource
  | Keyboard
  | Mouse
  | Gamepad
deriving DecidableEq, Repr

/-- Modelled from the spec: `PressState` is a variant over
`Pressed { started_pressing_instant: Option<Instant> }` and `Released`. -/
inductive PressState
  | Pressed (started_pressing_instant : Option Nat)
  | Released
deriving DecidableEq, Repr

/-- Modelled from the spec: `InputReceiver` is a discriminated identifier:
a button receiver, an absolute-axis receiver, or a delta-axis receiver;
equality is structural and receivers are used as mapping keys. -/
inductive InputReceiver
  | MouseButton (b : MouseButton)
  | MouseAxis (a : MouseAxisType)
  | MouseAxisDelta (a : MouseAxisType)
deriving DecidableEq, Repr

/-- A 2D vector (bevy's `Vec2`), components modelled as rationals. -/
structure Vec2 where
  x : ℚ
  y : ℚ
deriving DecidableEq, Repr

/-- Modelled from the spec: the per-receiver descriptor stored in an
`InputView`: a press state plus a scalar axis value. -/
structure Descriptor where
  press : PressState
  value : ℚ
deriving DecidableEq, Repr

/-- Modelled from the spec: the default descriptor created on first
access: `Released`, value `0`. -/
def defaultDescriptor : Descriptor := ⟨.Released, 0⟩

/-- Modelled from the spec: `InputView<Keys>` holds the lazily grown
receiver-to-descriptor mapping (absent entries are `none`) and
`last_input_source`.  The `Keys` binding parameter is never inspected by
this core, so it is omitted. -/
structure InputView where
  receivers : InputReceiver → Option Descriptor
  last_input_source : Option InputSource

/-- A view with no descriptors and no recorded input source. -/
def emptyView : InputView := ⟨fun _ => none, none⟩

/-- Store a descriptor under a receiver key (the mutation underlying the
view's write operations). -/
def InputView.insertDescriptor (v : InputView) (r : InputReceiver)
    (d : Descriptor) : InputView :=
  { v with receivers := fun q => if q = r then some d else v.receivers q }

/-- Modelled from the spec: `descriptor_or_insert(receiver)` returns the
existing descriptor for the receiver, or one with default state
(`Released`, value 0) if absent.  Used here both as the read accessor in
theorem statements and as the basis of the write operations. -/
def InputView.descriptorOrInsert (v : InputView) (r : InputReceiver) :
    Descriptor :=
  (v.receivers r).getD defaultDescriptor

/-- Modelled from the spec: `set_axis_value(receiver, value, press_state)`
sets the descriptor's value and press state, creating the descriptor if
absent; no validation on the value. -/
def InputView.set_axis_value (v : InputView) (r : InputReceiver)
    (value : ℚ) (press : PressState) : InputView :=
  v.insertDescriptor r ⟨press, value⟩

/-- Modelled from the spec: `set_key_receiver_state(receiver, press_state)`
sets only the press state, preserving the existing value. -/
def InputView.set_key_receiver_state (v : InputView) (r : InputReceiver)
    (press : PressState) : InputView :=
  v.insertDescriptor r { v.descriptorOrInsert r with press := press }

/-- The `view.descriptor_or_insert(r).axis.press = s` assignments in
`tick_mouse`: fetch-or-create the descriptor, then overwrite its press
state in place. -/
def InputView.setDescriptorPress (v : InputView) (r : InputReceiver)
    (press : PressState) : InputView :=
  v.insertDescriptor r { v.descriptorOrInsert r with press := press }

/-- `MouseMarker`: mouse button, location and delta support (source
`struct MouseMarker`). -/
structure MouseMarker where
  mouse_position : Option Vec2
  mouse_delta : Option Vec2
  does_mouse_location_changed_this_tick : Bool
  does_mouse_wheel_changed_this_tick : Bool
deriving DecidableEq, Repr

/-- The derived `Default` for `MouseMarker`: all fields at their default
(`None`/`false`). -/
def MouseMarker.default : MouseMarker := ⟨none, none, false, false⟩

/-- `MouseMarker::set_mouse_location`: change the current mouse location
and delta and set the last input source to Mouse (source lines 36-73).
Returns the updated view and marker. -/
def MouseMarker.set_mouse_location (m : MouseMarker) (view : InputView)
    (position : Vec2) (delta : Vec2) : InputView × MouseMarker :=
  let state := PressState.Pressed none
  let view := view.set_axis_value (.MouseAxis .X) position.x state
  let view := view.set_axis_value (.MouseAxis .Y) position.y state
  let view := view.set_axis_value (.MouseAxisDelta .X) delta.x state
  let view := view.set_axis_value (.MouseAxisDelta .Y) delta.y state
  let m := { m with
    mouse_delta := some delta
    mouse_position := some position
    does_mouse_location_changed_this_tick := true }
  ({ view with last_input_source := some .Mouse }, m)

/-- `MouseMarker::tick_mouse`: tick the mouse by stop moving the axis when
released (source lines 76-114). -/
def MouseMarker.tick_mouse (m : MouseMarker) (view : InputView) :
    InputView × MouseMarker :=
  let view := view.setDescriptorPress (.MouseAxis .X) .Released
  let view := view.setDescriptorPress (.MouseAxis .Y) .Released
  let view := view.set_axis_value (.MouseAxis .Y) 0 .Released
  let view := view.set_axis_value (.MouseAxis .Wheel) 0 .Released
  let view := view.set_axis_value (.MouseAxisDelta .X) 0 .Released
  let view := view.set_axis_value (.MouseAxisDelta .Y) 0 .Released
  let view := view.set_axis_value (.MouseAxisDelta .Wheel) 0 .Released
  (view, { m with
    does_mouse_location_changed_this_tick := false
    does_mouse_wheel_changed_this_tick := false
    mouse_delta := none })

/-- `MouseMarker::set_mouse_button_state`: set the mouse button state for
the given button and set the last input source to Mouse (source lines
117-127). -/
def MouseMarker.set_mouse_button_state (m : MouseMarker) (view : InputView)
    (button : MouseButton) (state : PressState) : InputView × MouseMarker :=
  let view := { view with last_input_source := some InputSource.Mouse }
  (view.set_key_receiver_state (.MouseButton button) state, m)

/-- `MouseMarker::set_mouse_wheel_state`: set the mouse wheel state and
set the last input source to Mouse (source lines 130-141). -/
def MouseMarker.set_mouse_wheel_state (m : MouseMarker) (view : InputView)
    (y : ℚ) (state : PressState) : InputView × MouseMarker :=
  let view := { view with last_input_source := some InputSource.Mouse }
  let view := view.set_axis_value (.MouseAxis .Wheel) y state
  (view, { m with does_mouse_wheel_changed_this_tick := true })

/-- Bevy `CursorMoved` event; only its `position` field is consumed. -/
structure CursorMoved where
  position : Vec2
deriving DecidableEq, Repr

/-- Bevy `MouseMotion` event carrying a 2D delta. -/
structure MouseMotion where
  delta : Vec2
deriving DecidableEq, Repr

/-- Bevy `ElementState` of a button transition event. -/
inductive ElementState
  | Pressed
  | Released
deriving DecidableEq, Repr

/-- Modelled from the spec: the `ev.state.into()` conversion (outside the
provided sources) maps the raw pressed/released signal to a `PressState`;
a press carries no start timestamp. -/
def ElementState.toPressState : ElementState → PressState
  | .Pressed => .Pressed none
  | .Released => .Released

/-- Bevy `MouseButtonInput` event. -/
structure MouseButtonInput where
  button : MouseButton
  state : ElementState
deriving DecidableEq, Repr

/-- Bevy `MouseWheel` event; only the vertical component `y` is consumed. -/
structure MouseWheel where
  x : ℚ
  y : ℚ
deriving DecidableEq, Repr

/-- One iteration of the paired position/motion loop in
`mouse_input_system` (source lines 159-161). -/
def applyLocationPair (s : InputView × MouseMarker)
    (p : CursorMoved × MouseMotion) : InputView × MouseMarker :=
  s.2.set_mouse_location s.1 p.1.position p.2.delta

/-- One iteration of the button loop in `mouse_input_system` (source
lines 162-164). -/
def applyButtonEvent (s : InputView × MouseMarker)
    (ev : MouseButtonInput) : InputView × MouseMarker :=
  s.2.set_mouse_button_state s.1 ev.button ev.state.toPressState

/-- One iteration of the wheel loop in `mouse_input_system` (source lines
165-174): derive the press state from the sign of `y`, then write it. -/
def applyWheelEvent (s : InputView × MouseMarker)
    (ev : MouseWheel) : InputView × MouseMarker :=
  let state := if ev.y > 0 then PressState.Pressed none else PressState.Released
  s.2.set_mouse_wheel_state s.1 ev.y state

/-- `mouse_input_system` for one context (one `(InputView, MouseMarker)`
pair, source lines 145-176): tick the mouse, then apply the paired
cursor/motion events, the button events, and the wheel events, in that
order.  Event queues are the per-tick contents of the four readers, in
arrival order; `cursor_rd.iter().zip(mtn_rd.iter())` is `List.zip`. -/
def mouse_input_system (cursor_rd : List CursorMoved)
    (btn_rd : List MouseButtonInput) (mtn_rd : List MouseMotion)
    (wheel_rd : List MouseWheel) (view : InputView) (mouse_svc : MouseMarker) :
    InputView × MouseMarker :=
  let s := mouse_svc.tick_mouse view
  let s := (cursor_rd.zip mtn_rd).foldl applyLocationPair s
  let s := btn_rd.foldl applyButtonEvent s
  wheel_rd.foldl applyWheelEvent s

/-! ### Helper lemmas -/

lemma receivers_insert_self (v : InputView) (r : InputReceiver) (d : Descriptor) :
    (v.insertDescriptor r d).receivers r = some d := by
  simp [InputView.insertDescriptor]

lemma receivers_insert_ne (v : InputView) {r q : InputReceiver} (d : Descriptor)
    (h : q ≠ r) : (v.insertDescriptor r d).receivers q = v.receivers q := by
  simp [InputView.insertDescriptor, h]

/-- The button loop never touches the marker. -/
lemma foldl_button_marker :
    ∀ (b : List MouseButtonInput) (s : InputView × MouseMarker),
      (b.foldl applyButtonEvent s).2 = s.2
  | [], _ => rfl
  | e :: b, s => by
    rw [List.foldl_cons, foldl_button_marker b]
    rfl

/-- The wheel loop preserves the marker's position, delta and location
flag (it only raises the wheel-changed flag). -/
lemma foldl_wheel_marker :
    ∀ (w : List MouseWheel) (s : InputView × MouseMarker),
      (w.foldl applyWheelEvent s).2.mouse_position = s.2.mouse_position ∧
      (w.foldl applyWheelEvent s).2.mouse_delta = s.2.mouse_delta ∧
      (w.foldl applyWheelEvent s).2.does_mouse_location_changed_this_tick
        = s.2.does_mouse_location_changed_this_tick
  | [], _ => ⟨rfl, rfl, rfl⟩
  | e :: w, s => by
    rw [List.foldl_cons]
    exact foldl_wheel_marker w (applyWheelEvent s e)

/-- The button loop writes only button receivers. -/
lemma foldl_button_receivers :
    ∀ (b : List MouseButtonInput) (s : InputView × MouseMarker)
      (r : InputReceiver), (∀ btn, r ≠ .MouseButton btn) →
      (b.foldl applyButtonEvent s).1.receivers r = s.1.receivers r
  | [], _, _, _ => rfl
  | e :: b, s, r, h => by
    rw [List.foldl_cons, foldl_button_receivers b _ r h]
    exact receivers_insert_ne _ _ (h e.button)

/-- The wheel loop writes only the wheel absolute-axis receiver. -/
lemma foldl_wheel_receivers :
    ∀ (w : List MouseWheel) (s : InputView × MouseMarker)
      (r : InputReceiver), r ≠ .MouseAxis .Wheel →
      (w.foldl applyWheelEvent s).1.receivers r = s.1.receivers r
  | [], _, _, _ => rfl
  | e :: w, s, r, h => by
    rw [List.foldl_cons, foldl_wheel_receivers w _ r h]
    exact receivers_insert_ne _ _ h

/-- A single paired position/motion application leaves every receiver
other than the four it writes untouched. -/
lemma applyLocationPair_receivers_ne (s : InputView × MouseMarker)
    (p : CursorMoved × MouseMotion) (r : InputReceiver)
    (h1 : r ≠ .MouseAxis .X) (h2 : r ≠ .MouseAxis .Y)
    (h3 : r ≠ .MouseAxisDelta .X) (h4 : r ≠ .MouseAxisDelta .Y) :
    (applyLocationPair s p).1.receivers r = s.1.receivers r := by
  simp [applyLocationPair, MouseMarker.set_mouse_location,
    InputView.set_axis_value, InputView.insertDescriptor, h1, h2, h3, h4]

/-- The paired position/motion loop never touches the wheel receivers. -/
lemma foldl_location_receivers_wheel :
    ∀ (ps : List (CursorMoved × MouseMotion)) (s : InputView × MouseMarker),
      (ps.foldl applyLocationPair s).1.receivers (.MouseAxis .Wheel)
        = s.1.receivers (.MouseAxis .Wheel) ∧
      (ps.foldl applyLocationPair s).1.receivers (.MouseAxisDelta .Wheel)
        = s.1.receivers (.MouseAxisDelta .Wheel)
  | [], _ => ⟨rfl, rfl⟩
  | p :: ps, s => by
    rw [List.foldl_cons]
    have h := foldl_location_receivers_wheel ps (applyLocationPair s p)
    refine ⟨h.1.trans ?_, h.2.trans ?_⟩
    · exact applyLocationPair_receivers_ne s p _ (by simp) (by simp) (by simp) (by simp)
    · exact applyLocationPair_receivers_ne s p _ (by simp) (by simp) (by simp) (by simp)

/-- After the paired position/motion loop, the marker's position and delta
come from the last applied pair (or are unchanged when no pair applies). -/
lemma foldl_location_marker :
    ∀ (ps : List (CursorMoved × MouseMotion)) (s : InputView × MouseMarker),
      (ps.foldl applyLocationPair s).2.mouse_position
        = ps.getLast?.elim s.2.mouse_position (fun p => some p.1.position) ∧
      (ps.foldl applyLocationPair s).2.mouse_delta
        = ps.getLast?.elim s.2.mouse_delta (fun p => some p.2.delta)
  | [], _ => ⟨rfl, rfl⟩
  | p :: ps, s => by
    rw [List.foldl_cons]
    have h := foldl_location_marker ps (applyLocationPair s p)
    cases ps with
    | nil =>
      simp [applyLocationPair, MouseMarker.set_mouse_location]
    | cons q qs =>
      rw [List.getLast?_cons_cons]
      have hs : ((q :: qs).getLast?).isSome :=
        List.getLast?_isSome.mpr (List.cons_ne_nil q qs)
      obtain ⟨l, hl⟩ := Option.isSome_iff_exists.mp hs
      rw [hl] at h ⊢
      simp at h ⊢
      exact h

/-- What `tick_mouse` does to the view's mouse receivers and the marker:
X keeps its value but is released, every other axis receiver is zeroed
and released, and the marker's per-tick fields are cleared. -/
lemma tick_mouse_spec (m : MouseMarker) (v : InputView) :
    ((m.tick_mouse v).1.descriptorOrInsert (.MouseAxis .X)).press = .Released ∧
    ((m.tick_mouse v).1.descriptorOrInsert (.MouseAxis .X)).value
      = (v.descriptorOrInsert (.MouseAxis .X)).value ∧
    (m.tick_mouse v).1.descriptorOrInsert (.MouseAxis .Y) = ⟨.Released, 0⟩ ∧
    (m.tick_mouse v).1.descriptorOrInsert (.MouseAxis .Wheel) = ⟨.Released, 0⟩ ∧
    (m.tick_mouse v).1.descriptorOrInsert (.MouseAxisDelta .X) = ⟨.Released, 0⟩ ∧
    (m.tick_mouse v).1.descriptorOrInsert (.MouseAxisDelta .Y) = ⟨.Released, 0⟩ ∧
    (m.tick_mouse v).1.descriptorOrInsert (.MouseAxisDelta .Wheel) = ⟨.Released, 0⟩ ∧
    (m.tick_mouse v).2 = { m with
      does_mouse_location_changed_this_tick := false
      does_mouse_wheel_changed_this_tick := false
      mouse_delta := none } := by
  refine ⟨?_, ?_, ?_, ?_, ?_, ?_, ?_, rfl⟩ <;>
    simp [MouseMarker.tick_mouse, InputView.setDescriptorPress,
      InputView.set_axis_value, InputView.insertDescriptor,
      InputView.descriptorOrInsert]

/-- `tick_mouse` never touches button receivers. -/
lemma tick_mouse_receivers_button (m : MouseMarker) (v : InputView)
    (b : MouseButton) :
    (m.tick_mouse v).1.receivers (.MouseButton b) = v.receivers (.MouseButton b) := by
  simp [MouseMarker.tick_mouse, InputView.setDescriptorPress,
    InputView.set_axis_value, InputView.insertDescriptor]

/-- The invariant relating the marker's cached delta to its per-tick
location flag: `mouse_delta` is set exactly when
`does_mouse_location_changed_this_tick` is true. -/
def mouseDeltaLocationInv (m : MouseMarker) : Prop :=
  m.mouse_delta.isSome = m.does_mouse_location_changed_this_tick

/-! ### Claim theorems -/

/-- C2: a wheel event with vertical delta `y > 0` writes the wheel axis
receiver with press state `Pressed` (no start timestamp) and `y <= 0`
writes it with `Released`; in both cases the receiver's value becomes
`y`. -/
theorem wheel_sign_rule (s : InputView × MouseMarker) (ev : MouseWheel) :
    (applyWheelEvent s ev).1.descriptorOrInsert (.MouseAxis .Wheel)
      = ⟨if ev.y > 0 then .Pressed none else .Released, ev.y⟩ ∧
    (ev.y > 0 → (applyWheelEvent s ev).1.descriptorOrInsert (.MouseAxis .Wheel)
      = ⟨.Pressed none, ev.y⟩) ∧
    (ev.y ≤ 0 → (applyWheelEvent s ev).1.descriptorOrInsert (.MouseAxis .Wheel)
      = ⟨.Released, ev.y⟩) := by
  refine ⟨?_, ?_, ?_⟩
  · simp [applyWheelEvent, MouseMarker.set_mouse_wheel_state,
      InputView.set_axis_value, InputView.insertDescriptor,
      InputView.descriptorOrInsert]
  · intro h
    simp [applyWheelEvent, MouseMarker.set_mouse_wheel_state,
      InputView.set_axis_value, InputView.insertDescriptor,
      InputView.descriptorOrInsert, if_pos h]
  · intro h
    simp [applyWheelEvent, MouseMarker.set_mouse_wheel_state,
      InputView.set_axis_value, InputView.insertDescriptor,
      InputView.descriptorOrInsert, if_neg (not_lt.mpr h)]

/-- Witness for C2: concrete wheel events with `y = 2` and `y = -1`. -/
theorem wheel_sign_rule_witness :
    ((applyWheelEvent (emptyView, MouseMarker.default)
        ⟨0, 2⟩).1.descriptorOrInsert (.MouseAxis .Wheel)
      = ⟨.Pressed none, 2⟩) ∧
    ((applyWheelEvent (emptyView, MouseMarker.default)
        ⟨0, -1⟩).1.descriptorOrInsert (.MouseAxis .Wheel)
      = ⟨.Released, -1⟩) := by
  constructor
  · exact (wheel_sign_rule (emptyView, MouseMarker.default) ⟨0, 2⟩).2.1
      (by norm_num)
  · exact (wheel_sign_rule (emptyView, MouseMarker.default) ⟨0, -1⟩).2.2
      (by norm_num)

/-- C5: a tick whose wheel queue is `y = 3` then `y = -1` ends with the
wheel axis receiver holding `Released` with value `-1` (the last event
wins) and the marker's wheel-changed flag set. -/
theorem wheel_last_event_wins (v : InputView) (m : MouseMarker) :
    ((mouse_input_system [] [] [] [⟨0, 3⟩, ⟨0, -1⟩] v m).1.descriptorOrInsert
        (.MouseAxis .Wheel) = ⟨.Released, -1⟩) ∧
    (mouse_input_system [] [] [] [⟨0, 3⟩, ⟨0, -1⟩] v
        m).2.does_mouse_wheel_changed_this_tick = true := by
  constructor
  · norm_num [mouse_input_system, MouseMarker.tick_mouse, applyWheelEvent,
      MouseMarker.set_mouse_wheel_state, InputView.set_axis_value,
      InputView.setDescriptorPress, InputView.insertDescriptor,
      InputView.descriptorOrInsert]
  · rfl

/-- C6: the tick (reset) phase keeps the X absolute-axis receiver's value
(releasing only its press state, while Y's value is zeroed) and keeps the
marker's `mouse_position`, which also persists through a whole tick with
no motion. -/
theorem tick_preserves_x_value_and_position (v : InputView) (m : MouseMarker) :
    ((m.tick_mouse v).1.descriptorOrInsert (.MouseAxis .X)).value
      = (v.descriptorOrInsert (.MouseAxis .X)).value ∧
    ((m.tick_mouse v).1.descriptorOrInsert (.MouseAxis .X)).press = .Released ∧
    ((m.tick_mouse v).1.descriptorOrInsert (.MouseAxis .Y)).value = 0 ∧
    (m.tick_mouse v).2.mouse_position = m.mouse_position ∧
    (∀ (b : List MouseButtonInput) (w : List MouseWheel),
      (mouse_input_system [] b [] w v m).2.mouse_position = m.mouse_position) := by
  obtain ⟨h1, h2, h3, -⟩ := tick_mouse_spec m v
  refine ⟨h2, h1, by rw [h3], rfl, ?_⟩
  intro b w
  have hsys : mouse_input_system [] b [] w v m
      = w.foldl applyWheelEvent (b.foldl applyButtonEvent (m.tick_mouse v)) := rfl
  rw [hsys, (foldl_wheel_marker w _).1, foldl_button_marker]
  rfl

/-- C7: each of the three mouse event mutators stamps the view's
`last_input_source` with the mouse device tag. -/
theorem mouse_event_source_attribution :
    (∀ (v : InputView) (m : MouseMarker) (pos d : Vec2),
      (m.set_mouse_location v pos d).1.last_input_source = some .Mouse) ∧
    (∀ (v : InputView) (m : MouseMarker) (b : MouseButton) (s : PressState),
      (m.set_mouse_button_state v b s).1.last_input_source = some .Mouse) ∧
    (∀ (v : InputView) (m : MouseMarker) (y : ℚ) (s : PressState),
      (m.set_mouse_wheel_state v y s).1.last_input_source = some .Mouse) :=
  ⟨fun _ _ _ _ => rfl, fun _ _ _ _ => rfl, fun _ _ _ _ => rfl⟩

/-- C8: the mouse update routine is a total function of its inputs — it
is the reset phase followed by three bounded folds over the event queues,
with no error outcome in its type — and empty queues contribute zero
iterations, leaving exactly the reset-phase result. -/
theorem mouse_input_system_total :
    (∀ (v : InputView) (m : MouseMarker),
      mouse_input_system [] [] [] [] v m = m.tick_mouse v) ∧
    (∀ (c : List CursorMoved) (b : List MouseButtonInput)
       (mt : List MouseMotion) (w : List MouseWheel) (v : InputView)
       (m : MouseMarker),
      mouse_input_system c b mt w v m
        = w.foldl applyWheelEvent (b.foldl applyButtonEvent
            ((c.zip mt).foldl applyLocationPair (m.tick_mouse v)))) :=
  ⟨fun _ _ => rfl, fun _ _ _ _ _ _ => rfl⟩

/-- C9: `mouse_delta` is set exactly when the location flag is up: the
invariant holds for the default marker, `tick_mouse` clears both fields,
`set_mouse_location` sets both, `set_mouse_button_state` leaves the
marker untouched, and `set_mouse_wheel_state` touches neither field. -/
theorem mouse_delta_flag_invariant :
    mouseDeltaLocationInv MouseMarker.default ∧
    (∀ (v : InputView) (m : MouseMarker),
      (m.tick_mouse v).2.mouse_delta = none ∧
      (m.tick_mouse v).2.does_mouse_location_changed_this_tick = false ∧
      mouseDeltaLocationInv (m.tick_mouse v).2) ∧
    (∀ (v : InputView) (m : MouseMarker) (pos d : Vec2),
      (m.set_mouse_location v pos d).2.mouse_delta = some d ∧
      (m.set_mouse_location v pos d).2.does_mouse_location_changed_this_tick
        = true ∧
      mouseDeltaLocationInv (m.set_mouse_location v pos d).2) ∧
    (∀ (v : InputView) (m : MouseMarker) (b : MouseButton) (s : PressState),
      (m.set_mouse_button_state v b s).2 = m) ∧
    (∀ (v : InputView) (m : MouseMarker) (y : ℚ) (s : PressState),
      (m.set_mouse_wheel_state v y s).2.mouse_delta = m.mouse_delta ∧
      (m.set_mouse_wheel_state v y
          s).2.does_mouse_location_changed_this_tick
        = m.does_mouse_location_changed_this_tick) :=
  ⟨rfl, fun _ _ => ⟨rfl, rfl, rfl⟩, fun _ _ _ _ => ⟨rfl, rfl, rfl⟩,
    fun _ _ _ _ => rfl, fun _ _ _ _ => ⟨rfl, rfl⟩⟩

/-- C10: `set_mouse_button_state` changes only the view's
`last_input_source` and the given button receiver's press state; the
marker is untouched, every other receiver keeps its stored entry, and
the button receiver keeps its value. -/
theorem button_state_frame_effect (v : InputView) (m : MouseMarker)
    (b : MouseButton) (s : PressState) :
    (m.set_mouse_button_state v b s).2 = m ∧
    (m.set_mouse_button_state v b s).1.last_input_source = some .Mouse ∧
    (∀ r : InputReceiver, r ≠ .MouseButton b →
      (m.set_mouse_button_state v b s).1.receivers r = v.receivers r) ∧
    ((m.set_mouse_button_state v b s).1.descriptorOrInsert
        (.MouseButton b)).value
      = (v.descriptorOrInsert (.MouseButton b)).value ∧
    ((m.set_mouse_button_state v b s).1.descriptorOrInsert
        (.MouseButton b)).press = s := by
  refine ⟨rfl, rfl, ?_, ?_, ?_⟩
  · intro r h
    exact receivers_insert_ne _ _ h
  · simp [MouseMarker.set_mouse_button_state, InputView.set_key_receiver_state,
      InputView.insertDescriptor, InputView.descriptorOrInsert]
  · simp [MouseMarker.set_mouse_button_state, InputView.set_key_receiver_state,
      InputView.insertDescriptor, InputView.descriptorOrInsert]

/-- Witness for C10: the empty view, default marker, left button, a
concrete press, and the X axis receiver as the untouched one. -/
theorem button_state_frame_effect_witness :
    (MouseMarker.default.set_mouse_button_state emptyView .Left
        (.Pressed none)).2 = MouseMarker.default ∧
    (MouseMarker.default.set_mouse_button_state emptyView .Left
        (.Pressed none)).1.receivers (.MouseAxis .X)
      = emptyView.receivers (.MouseAxis .X) ∧
    ((MouseMarker.default.set_mouse_button_state emptyView .Left
        (.Pressed none)).1.descriptorOrInsert (.MouseButton .Left)).press
      = .Pressed none := by
  have h := button_state_frame_effect emptyView MouseMarker.default .Left
    (.Pressed none)
  exact ⟨h.1, h.2.2.1 _ (by simp), h.2.2.2.2⟩

/-- A view whose left-button receiver was written `Pressed` on an earlier
tick and never released. -/
def stuckButtonView : InputView :=
  ⟨fun r => if r = .MouseButton .Left then some ⟨.Pressed none, 0⟩ else none,
    none⟩

/-- Concrete cursor-position queue with two events. -/
def cursorSample : List CursorMoved := [⟨⟨1, 2⟩⟩, ⟨⟨3, 4⟩⟩]

/-- Concrete motion-delta queue with one event. -/
def motionSample : List MouseMotion := [⟨⟨5, 6⟩⟩]

/-- C1: with N cursor events and M motion events, exactly `min N M` pairs
are applied: the pair list has length `min N M`, the routine's result
only depends on the first `min N M` events of each stream, and the final
`mouse_position` is the position of the last applied pair. -/
theorem pairing_min_pairs_applied (c : List CursorMoved)
    (b : List MouseButtonInput) (mt : List MouseMotion) (w : List MouseWheel)
    (v : InputView) (m : MouseMarker) (_hne : c.length ≠ mt.length)
    (hpos : 0 < min c.length mt.length) :
    (c.zip mt).length = min c.length mt.length ∧
    mouse_input_system c b mt w v m
      = mouse_input_system (c.take (min c.length mt.length)) b
          (mt.take (min c.length mt.length)) w v m ∧
    (mouse_input_system c b mt w v m).2.mouse_position
      = (c.zip mt).getLast?.map (fun p => p.1.position) := by
  have hsys : mouse_input_system c b mt w v m
      = w.foldl applyWheelEvent (b.foldl applyButtonEvent
          ((c.zip mt).foldl applyLocationPair (m.tick_mouse v))) := rfl
  refine ⟨List.length_zip c mt, ?_, ?_⟩
  · have hz : (c.take (min c.length mt.length)).zip
        (mt.take (min c.length mt.length)) = c.zip mt := by
      rw [List.zip_eq_zipWith, ← List.take_zipWith, ← List.zip_eq_zipWith]
      apply List.take_of_length_le
      rw [List.length_zip]
    have h2 : mouse_input_system (c.take (min c.length mt.length)) b
        (mt.take (min c.length mt.length)) w v m
        = w.foldl applyWheelEvent (b.foldl applyButtonEvent
            (((c.take (min c.length mt.length)).zip
              (mt.take (min c.length mt.length))).foldl applyLocationPair
                (m.tick_mouse v))) := rfl
    rw [hsys, h2, hz]
  · have hz0 : c.zip mt ≠ [] := by
      intro h
      have hl := List.length_zip c mt
      rw [h] at hl
      simp at hl
      omega
    obtain ⟨l, hl⟩ := Option.isSome_iff_exists.mp
      (List.getLast?_isSome.mpr hz0)
    rw [hsys, (foldl_wheel_marker w _).1, foldl_button_marker,
      (foldl_location_marker (c.zip mt) _).1, hl]
    simp

/-- Witness for C1: two cursor events against one motion event, so
`min N M = 1` and only the first pair is applied. -/
theorem pairing_min_pairs_applied_witness :
    (cursorSample.zip motionSample).length
      = min cursorSample.length motionSample.length ∧
    mouse_input_system cursorSample [] motionSample [] emptyView
        MouseMarker.default
      = mouse_input_system
          (cursorSample.take (min cursorSample.length motionSample.length)) []
          (motionSample.take (min cursorSample.length motionSample.length)) []
          emptyView MouseMarker.default ∧
    (mouse_input_system cursorSample [] motionSample [] emptyView
        MouseMarker.default).2.mouse_position
      = (cursorSample.zip motionSample).getLast?.map (fun p => p.1.position) :=
  pairing_min_pairs_applied cursorSample [] motionSample [] emptyView
    MouseMarker.default (by decide) (by decide)

/-- Counterexample to C3 as stated: a button written `Pressed` on an
earlier tick receives no event this tick, yet after the tick its press
state is still `Pressed`, not `Released` — `tick_mouse` resets only the
axis receivers, never buttons. -/
theorem neutral_reset_buttons_counterexample :
    ((mouse_input_system [] [] [] [] stuckButtonView
        MouseMarker.default).1.descriptorOrInsert
          (.MouseButton .Left)).press = .Pressed none ∧
    ((mouse_input_system [] [] [] [] stuckButtonView
        MouseMarker.default).1.descriptorOrInsert
          (.MouseButton .Left)).press ≠ .Released := by
  have h : (mouse_input_system [] [] [] [] stuckButtonView
      MouseMarker.default).1.receivers (.MouseButton .Left)
      = stuckButtonView.receivers (.MouseButton .Left) :=
    tick_mouse_receivers_button MouseMarker.default stuckButtonView .Left
  simp only [InputView.descriptorOrInsert, h]
  constructor
  · rfl
  · simp [stuckButtonView]

/-- C3 (amended to the axis receivers): a receiver with no corresponding
event this tick ends the tick `Released`, with value 0 for the delta and
wheel receivers (absolute X keeps its value, absolute Y is zeroed);
button receivers are exempt and keep their previous press state. -/
theorem neutral_reset_axes (c : List CursorMoved) (b : List MouseButtonInput)
    (mt : List MouseMotion) (w : List MouseWheel) (v : InputView)
    (m : MouseMarker) :
    (c.zip mt = [] →
      ((mouse_input_system c b mt w v m).1.descriptorOrInsert
          (.MouseAxis .X)).press = .Released ∧
      ((mouse_input_system c b mt w v m).1.descriptorOrInsert
          (.MouseAxis .Y)).press = .Released ∧
      (mouse_input_system c b mt w v m).1.descriptorOrInsert
          (.MouseAxisDelta .X) = ⟨.Released, 0⟩ ∧
      (mouse_input_system c b mt w v m).1.descriptorOrInsert
          (.MouseAxisDelta .Y) = ⟨.Released, 0⟩) ∧
    (w = [] →
      (mouse_input_system c b mt w v m).1.descriptorOrInsert
          (.MouseAxis .Wheel) = ⟨.Released, 0⟩) ∧
    (mouse_input_system c b mt w v m).1.descriptorOrInsert
        (.MouseAxisDelta .Wheel) = ⟨.Released, 0⟩ := by
  have hsys : mouse_input_system c b mt w v m
      = w.foldl applyWheelEvent (b.foldl applyButtonEvent
          ((c.zip mt).foldl applyLocationPair (m.tick_mouse v))) := rfl
  obtain ⟨hX1, hX2, hY, hW, hDX, hDY, hDW, -⟩ := tick_mouse_spec m v
  refine ⟨?_, ?_, ?_⟩
  · intro hz
    have dkey : ∀ r : InputReceiver, r ≠ .MouseAxis .Wheel →
        (∀ btn, r ≠ .MouseButton btn) →
        (mouse_input_system c b mt w v m).1.descriptorOrInsert r
          = (m.tick_mouse v).1.descriptorOrInsert r := by
      intro r h1 h2
      simp only [InputView.descriptorOrInsert]
      rw [hsys, foldl_wheel_receivers w _ r h1,
        foldl_button_receivers b _ r h2, hz]
      rfl
    refine ⟨?_, ?_, ?_, ?_⟩
    · rw [dkey _ (by simp) (fun btn => by simp)]
      exact hX1
    · rw [dkey _ (by simp) (fun btn => by simp), hY]
    · rw [dkey _ (by simp) (fun btn => by simp)]
      exact hDX
    · rw [dkey _ (by simp) (fun btn => by simp)]
      exact hDY
  · intro hw
    have hr : (mouse_input_system c b mt w v m).1.receivers
        (.MouseAxis .Wheel)
        = (m.tick_mouse v).1.receivers (.MouseAxis .Wheel) := by
      rw [hsys, hw]
      simp only [List.foldl_nil]
      rw [foldl_button_receivers b _ _ (fun btn => by simp)]
      exact (foldl_location_receivers_wheel (c.zip mt) _).1
    simp only [InputView.descriptorOrInsert, hr]
    exact hW
  · have hr : (mouse_input_system c b mt w v m).1.receivers
        (.MouseAxisDelta .Wheel)
        = (m.tick_mouse v).1.receivers (.MouseAxisDelta .Wheel) := by
      rw [hsys, foldl_wheel_receivers w _ _ (by simp),
        foldl_button_receivers b _ _ (fun btn => by simp)]
      exact (foldl_location_receivers_wheel (c.zip mt) _).2
    simp only [InputView.descriptorOrInsert, hr]
    exact hDW

/-- Witness for C3 (amended): a tick with no events at all, starting from
the empty view. -/
theorem neutral_reset_axes_witness :
    ((mouse_input_system [] [] [] [] emptyView
        MouseMarker.default).1.descriptorOrInsert
          (.MouseAxis .X)).press = .Released ∧
    (mouse_input_system [] [] [] [] emptyView
        MouseMarker.default).1.descriptorOrInsert
          (.MouseAxisDelta .Y) = ⟨.Released, 0⟩ ∧
    (mouse_input_system [] [] [] [] emptyView
        MouseMarker.default).1.descriptorOrInsert
          (.MouseAxis .Wheel) = ⟨.Released, 0⟩ ∧
    (mouse_input_system [] [] [] [] emptyView
        MouseMarker.default).1.descriptorOrInsert
          (.MouseAxisDelta .Wheel) = ⟨.Released, 0⟩ := by
  have h := neutral_reset_axes [] [] [] [] emptyView MouseMarker.default
  exact ⟨(h.1 rfl).1, (h.1 rfl).2.2.2, h.2.1 rfl, h.2.2⟩

/-- C4: when no paired position/motion event is applied in a tick, the
marker's `mouse_delta` after the tick is `none` — a delta never survives
from an earlier tick. -/
theorem edge_triggered_delta (c : List CursorMoved)
    (b : List MouseButtonInput) (mt : List MouseMotion) (w : List MouseWheel)
    (v : InputView) (m : MouseMarker) (hz : c.zip mt = []) :
    (mouse_input_system c b mt w v m).2.mouse_delta = none := by
  have hsys : mouse_input_system c b mt w v m
      = w.foldl applyWheelEvent (b.foldl applyButtonEvent
          ((c.zip mt).foldl applyLocationPair (m.tick_mouse v))) := rfl
  rw [hsys, hz]
  simp only [List.foldl_nil]
  rw [(foldl_wheel_marker w _).2.1, foldl_button_marker]
  rfl

/-- Witness for C4: a marker carrying a stale delta from an earlier tick,
one cursor event but no motion event (so no pair is applied), plus button
and wheel traffic; the delta is still cleared. -/
theorem edge_triggered_delta_witness :
    (mouse_input_system [⟨⟨7, 8⟩⟩] [⟨.Left, .Pressed⟩] [] [⟨0, 5⟩] emptyView
        ⟨some ⟨1, 2⟩, some ⟨3, 4⟩, true, false⟩).2.mouse_delta = none :=
  edge_triggered_delta [⟨⟨7, 8⟩⟩] [⟨.Left, .Pressed⟩] [] [⟨0, 5⟩] emptyView
    ⟨some ⟨1, 2⟩, some ⟨3, 4⟩, true, false⟩ rfl

end EZInput
